/-
Verification of `pygaggle/data/create_epidemic_qa_monot5_input.py`.

The script loads a JSON topic file and a TREC run file, fetches each
candidate document from an index, splits its body into sentences and
overlapping sentence windows ("segments"), and writes one monoT5 prompt
line plus one tab-separated id line per segment.

The development below is a shallow embedding of that script:
  * Python string primitives (`str.split('\n')`, `str.split()`, `int(...)`)
    are modelled over `List Char` / `String`;
  * `load_queries` and `load_run` are modelled as `Except`-returning
    functions (malformed input raises in Python);
  * the `__main__` output loop (lines 96-157 of the source) is modelled as
    explicit state passing over `MainState`, whose fields are the script's
    counters, the two output files (as lists of lines, without the
    terminating newline), and standard output.  An abnormal termination is
    an `Option String` error paired with the state reached so far, so that
    partially written output stays observable.

Two points of the source matter throughout and are modelled faithfully:
  * `load_queries` reads `args.use_question`, an attribute the argparse
    setup never defines (it defines `use_question_and_query`), so any
    topic list with at least one entry raises `AttributeError`;
  * the segment loop increments `n_segments`, a name that is never bound
    (the initialised counter is `num_segments`), so the first segment ever
    written raises `NameError` right after its two output lines.
-/
import Mathlib

namespace Epi

/-! ### Python string primitives -/

/-- The characters Python's argument-less `str.split()` treats as
whitespace (space, tab, newline, carriage return, vertical tab, form
feed). -/
def pyIsSpace (c : Char) : Bool :=
  c = ' ' || c = '\t' || c = '\n' || c = '\r' || c = '\x0b' || c = '\x0c'

/-- Worker for `pySplitWs`: accumulates the current word (reversed) and
emits it when whitespace or the end of the string is reached. -/
def splitWsAux : List Char → List Char → List (List Char)
  | [], acc => if acc = [] then [] else [acc.reverse]
  | c :: rest, acc =>
    if pyIsSpace c then
      if acc = [] then splitWsAux rest []
      else acc.reverse :: splitWsAux rest []
    else splitWsAux rest (c :: acc)

/-- Python `s.split()` (no argument): split on runs of whitespace,
discarding empty fields and leading/trailing whitespace. -/
def pySplitWs (s : String) : List String :=
  (splitWsAux s.data []).map String.mk

/-- Worker for `pySplitNl`, over character lists. -/
def splitNlChars : List Char → List (List Char)
  | [] => [[]]
  | c :: rest =>
    if c = '\n' then [] :: splitNlChars rest
    else
      match splitNlChars rest with
      | [] => [[c]]
      | grp :: grps => (c :: grp) :: grps

/-- Python `s.split('\n')`: split at every newline, keeping empty fields;
the result always has (number of newlines) + 1 elements, so it is never
empty. -/
def pySplitNl (s : String) : List String :=
  (splitNlChars s.data).map String.mk

/-- Iterating over an open text file in Python yields one item per line.
Modulo the line terminators (which every consumer here strips via
`split()`), that is `pySplitNl` minus the empty element a trailing
newline would produce. -/
def fileLines (s : String) : List String :=
  let parts := pySplitNl s
  if parts.getLast? = some "" then parts.dropLast else parts

/-- Worker for `pyInt`: reads a non-empty run of decimal digits. -/
def digitsToNatAux : Nat → List Char → Option Nat
  | acc, [] => some acc
  | acc, c :: rest =>
    if c.isDigit then digitsToNatAux (acc * 10 + (c.toNat - 48)) rest
    else none

/-- `some` value of a non-empty all-digit character list, else `none`. -/
def digitsToNat? (l : List Char) : Option Nat :=
  if l = [] then none else digitsToNatAux 0 l

/-- Python `s.startswith('.')`: the first character is a period. -/
def pyStartsWithDot (s : String) : Bool :=
  match s.data with
  | c :: _ => c = '.'
  | [] => false

/-- Python `s[1:]`: drop the first character. -/
def pyDropFirst (s : String) : String :=
  String.mk (s.data.drop 1)

/-- Python `s.strip()`: remove leading and trailing whitespace. -/
def pyStrip (s : String) : String :=
  String.mk (((s.data.dropWhile pyIsSpace).reverse.dropWhile pyIsSpace).reverse)

/-- Python `int(s)` on the strings this script feeds it (an optional sign
followed by decimal digits); `none` models the `ValueError` Python raises
on anything else. -/
def pyInt (s : String) : Option Int :=
  match s.data with
  | '-' :: rest => (digitsToNat? rest).map (fun n => -(n : Int))
  | '+' :: rest => (digitsToNat? rest).map Int.ofNat
  | l => (digitsToNat? l).map Int.ofNat

/-! ### Query loader (`load_queries`, source lines 20-42, argparse lines 68-88)

The argparse setup registers `--queries`, `--run`, `--index`,
`--t5_input`, `--t5_input_ids`, `--use_question_and_query` (a boolean
flag), `--stride` and `--max_length`, so the parsed namespace has exactly
those eight attributes.  `load_queries` branches on `args.use_question`,
an attribute the namespace does not have. -/

/-- A value stored in the parsed argparse namespace. -/
inductive ArgValue where
  | str (s : String)
  | bool (b : Bool)
  | int (n : Nat)
deriving DecidableEq, Repr

/-- The parsed command-line arguments (the `args` namespace of the
script).  `stride` and `max_length` are `type=int` arguments; the script
is only meaningful for non-negative values, so they are modelled as
`Nat`. -/
structure Args where
  queries : String
  run : String
  index : String
  t5_input : String
  t5_input_ids : String
  use_question_and_query : Bool
  stride : Nat
  max_length : Nat
deriving DecidableEq, Repr

/-- The attribute table argparse builds for `args`: exactly the eight
registered arguments, keyed by attribute name. -/
def argNamespace (a : Args) : List (String × ArgValue) :=
  [("queries", .str a.queries),
   ("run", .str a.run),
   ("index", .str a.index),
   ("t5_input", .str a.t5_input),
   ("t5_input_ids", .str a.t5_input_ids),
   ("use_question_and_query", .bool a.use_question_and_query),
   ("stride", .int a.stride),
   ("max_length", .int a.max_length)]

/-- Assoc-list lookup used for attribute access on `args`; `none` models
Python's `AttributeError`. -/
def getattrArg : List (String × ArgValue) → String → Option ArgValue
  | [], _ => none
  | (k, v) :: rest, name => if k = name then some v else getattrArg rest name

/-- Python truthiness of an attribute value, as `if args.use_question:`
would evaluate it. -/
def argTruthy : ArgValue → Bool
  | .str s => s ≠ ""
  | .bool b => b
  | .int n => n ≠ 0

/-- One topic object of the queries JSON array (fields `question_id`,
`question`, `query`). -/
structure Topic where
  question_id : String
  question : String
  query : String
deriving DecidableEq, Repr

/-- `queries[question_id] = text` on an insertion-ordered dict: an
existing key keeps its position and gets the new value, a new key is
appended. -/
def dictSet (m : List (Int × String)) (k : Int) (v : String) : List (Int × String) :=
  match m with
  | [] => [(k, v)]
  | (k0, v0) :: rest => if k0 = k then (k0, v) :: rest else (k0, v0) :: dictSet rest k v

/-- Loop body of `load_queries` over the parsed topic array, accumulating
the ordered dict.  Per topic: strip the 2-character prefix from
`question_id` and parse the rest as an int (`ValueError` on failure),
then branch on `args.use_question` — an attribute the argparse namespace
never defines, so the branch raises `AttributeError`.  The `some` arm is
what Python would do if the attribute existed: store the question when it
is truthy, the query otherwise. -/
def load_queries_aux (args : Args) (acc : List (Int × String)) :
    List Topic → Except String (List (Int × String))
  | [] => .ok acc
  | t :: rest =>
    match pyInt (t.question_id.drop 2) with
    | none => .error "ValueError: invalid literal for int"
    | some question_id =>
      match getattrArg (argNamespace args) "use_question" with
      | none => .error "AttributeError: Namespace object has no attribute use_question"
      | some v =>
        let text := if argTruthy v then t.question else t.query
        load_queries_aux args (dictSet acc question_id text) rest

/-- `load_queries` (source lines 20-42), applied to the parsed JSON topic
array.  Errors model the uncaught exceptions of the Python code. -/
def load_queries (args : Args) (topics : List Topic) :
    Except String (List (Int × String)) :=
  load_queries_aux args [] topics

/-! ### Run loader (`load_run`, source lines 45-66) -/

/-- Parse one run-file line: `line.split()` must yield exactly six
whitespace-delimited fields `query_id _ doc_id rank _ _` (tuple-unpacking
`ValueError` otherwise), with `query_id` and `rank` parsed as ints. -/
def parseRunLine (line : String) : Except String (Int × String × Int) :=
  match pySplitWs line with
  | [qidStr, _, doc_id, rankStr, _, _] =>
    match pyInt qidStr, pyInt rankStr with
    | some q, some r => .ok (q, doc_id, r)
    | _, _ => .error "ValueError: invalid literal for int"
  | _ => .error "ValueError: not enough values to unpack"

/-- `run[query_id].append((doc_id, rank))` on an insertion-ordered dict
(creating the key at the end if absent). -/
def addRunEntry (m : List (Int × List (String × Int))) (q : Int) (e : String × Int) :
    List (Int × List (String × Int)) :=
  match m with
  | [] => [(q, [e])]
  | (k, v) :: rest =>
    if k = q then (k, v ++ [e]) :: rest else (k, v) :: addRunEntry rest q e

/-- First loop of `load_run`: fold the run-file lines into the ordered
dict of `(doc_id, rank)` lists per query id. -/
def load_run_aux (acc : List (Int × List (String × Int))) :
    List String → Except String (List (Int × List (String × Int)))
  | [] => .ok acc
  | line :: rest => do
    let (q, d, r) ← parseRunLine line
    load_run_aux (addRunEntry acc q (d, r)) rest

/-- `sorted(doc_ids_ranks, key=lambda x: x[1])`: a rank-sorted copy of
the list.  The source discards this return value. -/
def sortedByRank (l : List (String × Int)) : List (String × Int) :=
  l.insertionSort (fun a b => a.2 ≤ b.2)

/-- `load_run` (source lines 45-66) over the run file's lines.  The
second loop computes a rank-sorted copy of each candidate list but drops
it (the `sorted(...)` call's value is never used), so the stored doc-id
list keeps the insertion (file) order. -/
def load_run (lines : List String) : Except String (List (Int × List String)) := do
  let run ← load_run_aux [] lines
  .ok (run.map (fun p =>
    let _sorted_unused := sortedByRank p.2
    (p.1, p.2.map Prod.fst)))

/-! ### Segmenter (source lines 140-155)

The segment loop is `for i in range(0, len(sentences), stride): ...` with
a `break` once `i + max_length >= len(sentences)`.  `segStarts` is the
list of start offsets the loop visits (break included); `segWindows` the
corresponding sentence windows `sentences[i : i + max_length]`. -/

/-- Python `range(0, n, stride)` for `stride ≥ 1`: the multiples of
`stride` below `n`.  (`stride = 0` raises `ValueError` in Python; the
main-loop model errors before this point, and the value here for 0 is
irrelevant.) -/
def pyRange (n stride : Nat) : List Nat :=
  List.range' 0 ((n + stride - 1) / stride) stride

/-- A loop with a trailing `break`: the elements of `l` up to and
including the first one satisfying `p` (all of `l` if none does). -/
def takeUpTo (p : α → Bool) : List α → List α
  | [] => []
  | a :: as => if p a then [a] else a :: takeUpTo p as

/-- The start offsets the segment loop visits for `n` sentences: iterate
`range(0, n, stride)` and stop right after the first `i` with
`i + max_length ≥ n` (the source's `break`). -/
def segStarts (n stride max_length : Nat) : List Nat :=
  takeUpTo (fun i => n ≤ i + max_length) (pyRange n stride)

/-- The sentence windows `sentences[i : i + max_length]` for each visited
start offset `i`. -/
def segWindows (sentences : List String) (stride max_length : Nat) : List (List String) :=
  (segStarts sentences.length stride max_length).map
    (fun i => (sentences.drop i).take max_length)

/-! ### Main output loop (source lines 96-157)

State of the `__main__` block: the four counters initialised at lines
98-101, the two output files (lists of lines), captured standard output,
and `n_segments` — which the source never initialises (`num_segments` is
the initialised name), modelled as `Option Nat` starting at `none` so
that `n_segments += 1` raises `NameError`. -/

structure MainState where
  num_docs : Nat
  num_segments : Nat
  num_no_segments : Nat
  num_no_content : Nat
  n_segments : Option Nat
  t5_texts : List String
  t5_ids : List String
  stdout : List String
deriving DecidableEq, Repr

/-- The state right after lines 96-103 of the source: counters zero,
`n_segments` unbound, output files empty. -/
def initState : MainState :=
  { num_docs := 0, num_segments := 0, num_no_segments := 0, num_no_content := 0,
    n_segments := none, t5_texts := [], t5_ids := [], stdout := [] }

/-- The body of the segment loop (source lines 140-155) over the visited
start offsets.  Each iteration builds the segment text, prepends the
document title (stripping one leading `'.'` — a mutation of `doc_title`
that persists into later iterations), writes the id line and the prompt
line, and then executes `n_segments += 1`, which raises `NameError`
whenever `n_segments` is unbound — after the two writes.  The `break` is
already encoded in the starts list. -/
def segmentSteps (query_id : Int) (candidate_doc_id query : String)
    (sentences : List String) (max_length : Nat) :
    List Nat → String → MainState → MainState × Option String
  | [], _, st => (st, none)
  | i :: rest, doc_title, st =>
    let segment := pyStrip (String.intercalate " " ((sentences.drop i).take max_length))
    let doc_title2 :=
      if doc_title = "" then doc_title
      else if pyStartsWithDot doc_title then pyDropFirst doc_title else doc_title
    let segment2 :=
      if doc_title = "" then segment
      else String.intercalate ". " [doc_title2, segment]
    let st2 := { st with
      t5_ids := st.t5_ids ++ [s!"{query_id}\t{candidate_doc_id}\t{i}"],
      t5_texts := st.t5_texts ++ [s!"Query: {query} Document: {segment2} Relevant:"] }
    match st2.n_segments with
    | none => (st2, some "NameError: name n_segments is not defined")
    | some k =>
      let st3 := { st2 with n_segments := some (k + 1) }
      segmentSteps query_id candidate_doc_id query sentences max_length rest doc_title2 st3

/-- Processing of one candidate document (source lines 107-156).
`index` is `index_utils.doc_contents` (with `none` and `""` both falsy),
`sents` the spaCy sentencizer (kept abstract).  Returns the updated
`seen_doc_ids`, the updated state, and an error when the iteration raises. -/
def processCandidate (index : String → Option String) (sents : String → List String)
    (stride max_length : Nat) (query_id : Int) (query candidate_doc_id : String)
    (seen_doc_ids : List String) (st : MainState) :
    List String × MainState × Option String :=
  if seen_doc_ids.contains candidate_doc_id then
    (seen_doc_ids, st, none)
  else
    match index candidate_doc_id with
    | none =>
      (seen_doc_ids,
       { st with num_no_content := st.num_no_content + 1,
                 stdout := st.stdout ++ [s!"Doc id not found: {candidate_doc_id}"] },
       none)
    | some contents =>
      if contents = "" then
        (seen_doc_ids,
         { st with num_no_content := st.num_no_content + 1,
                   stdout := st.stdout ++ [s!"Doc id not found: {candidate_doc_id}"] },
         none)
      else
        let sections := pySplitNl contents
        if sections.length = 0 then
          (seen_doc_ids, { st with num_no_content := st.num_no_content + 1 }, none)
        else
          let doc_title := sections.headI
          let st1 := { st with num_docs := st.num_docs + 1 }
          if sections.length < 2 then
            (seen_doc_ids, { st1 with num_no_content := st1.num_no_content + 1 }, none)
          else
            let passage_text := String.intercalate " " (sections.drop 1)
            let passage_text2 := String.intercalate " " (pySplitWs passage_text)
            let sentences0 := (sents passage_text2).map pyStrip
            let sentences := if sentences0 = [] then [""] else sentences0
            let st2 :=
              if sentences0 = [] then
                { st1 with num_no_segments := st1.num_no_segments + 1 }
              else st1
            if stride = 0 then
              (seen_doc_ids, st2, some "ValueError: range arg 3 must not be zero")
            else
              let res := segmentSteps query_id candidate_doc_id query sentences max_length
                  (segStarts sentences.length stride max_length) doc_title st2
              -- `seen_doc_ids.add` runs only after the segment loop finishes
              -- without raising (line 156 of the source).
              (if res.2.isSome then seen_doc_ids else seen_doc_ids ++ [candidate_doc_id],
               res.1, res.2)

/-- The inner `for candidate_doc_id in candidate_doc_ids` loop: thread
`seen_doc_ids` and the state through `processCandidate`, stopping when an
iteration raises. -/
def processCandidates (index : String → Option String) (sents : String → List String)
    (stride max_length : Nat) (query_id : Int) (query : String) :
    List String → List String → MainState → MainState × Option String
  | [], _, st => (st, none)
  | c :: rest, seen_doc_ids, st =>
    match processCandidate index sents stride max_length query_id query c seen_doc_ids st with
    | (seen2, st2, none) =>
      processCandidates index sents stride max_length query_id query rest seen2 st2
    | (_, st2, some e) => (st2, some e)

/-- Dict lookup (e.g. `queries[query_id]`); `none` models `KeyError`. -/
def dictGet {α : Type} : List (Int × α) → Int → Option α
  | [], _ => none
  | (k, v) :: rest, q => if k = q then some v else dictGet rest q

/-- The outer `for (query_id, candidate_doc_ids) in run.items()` loop of
the `with` block (source lines 104-156): look up the query text
(`KeyError` aborts), reset `seen_doc_ids`, and process the candidates. -/
def mainLoop (index : String → Option String) (sents : String → List String)
    (stride max_length : Nat) (queries : List (Int × String)) :
    List (Int × List String) → MainState → MainState × Option String
  | [], st => (st, none)
  | (query_id, candidate_doc_ids) :: rest, st =>
    match dictGet queries query_id with
    | none => (st, some "KeyError")
    | some query =>
      match processCandidates index sents stride max_length query_id query
          candidate_doc_ids [] st with
      | (st2, none) => mainLoop index sents stride max_length queries rest st2
      | (st2, some e) => (st2, some e)

/-! ### Order of candidates stored by `load_run` -/

/-- The list stored for key `q` (empty when the key is absent). -/
def flatDict {α : Type} (m : List (Int × List α)) (q : Int) : List α :=
  match dictGet m q with
  | some v => v
  | none => []

/-- The `(doc_id, rank)` pairs of the run-file lines whose query id is
`q`, in file order. -/
def linePairs (lines : List String) (q : Int) : List (String × Int) :=
  lines.filterMap (fun line =>
    match parseRunLine line with
    | .ok (q2, d, r) => if q2 = q then some (d, r) else none
    | .error _ => none)

/-- The doc ids of the run-file lines whose query id is `q`, in file
order. -/
def fileOrderDocIds (lines : List String) (q : Int) : List String :=
  lines.filterMap (fun line =>
    match parseRunLine line with
    | .ok (q2, d, _) => if q2 = q then some d else none
    | .error _ => none)

/-! ### Theorems -/

/-- `splitNlChars` always returns at least one group. -/
theorem splitNlChars_ne_nil (l : List Char) : splitNlChars l ≠ [] := by
  cases l with
  | nil => simp [splitNlChars]
  | cons c rest =>
    simp only [splitNlChars]
    split
    · simp
    · split <;> simp

/-- Python's `s.split('\n')` never returns an empty list. -/
theorem pySplitNl_ne_nil (s : String) : pySplitNl s ≠ [] := by
  simpa [pySplitNl] using splitNlChars_ne_nil s.data

/-- C10: the `len(sections) == 0` branch at lines 117-119 is unreachable:
any string reaching it passed the `if not contents` guard (so it is
non-empty), and `contents.split('\n')` always yields at least one
element, so `len(sections) == 0` never holds there. -/
theorem c10_empty_sections_branch_unreachable (contents : String)
    (_h : contents ≠ "") : (pySplitNl contents).length ≠ 0 := by
  have h2 := pySplitNl_ne_nil contents
  simpa [List.length_eq_zero] using h2

theorem c10_empty_sections_branch_unreachable_witness :
    ("x" : String) ≠ "" ∧ (pySplitNl "x").length ≠ 0 :=
  ⟨by decide, c10_empty_sections_branch_unreachable "x" (by decide)⟩

/-- C1: `load_queries` cannot select text by the
`--use_question_and_query` flag, because it branches on
`args.use_question`, an attribute the argparse namespace never defines.
On any topic list with at least one entry it raises `AttributeError`,
whether the flag was passed (first conjunct) or not (second conjunct);
no concatenation of question and query is ever built. -/
theorem c1_load_queries_attribute_error :
    load_queries ⟨"q.json", "run.txt", "idx", "out.txt", "ids.txt", true, 4, 8⟩
      [⟨"CQ001", "what is x", "x"⟩]
      = .error "AttributeError: Namespace object has no attribute use_question" ∧
    load_queries ⟨"q.json", "run.txt", "idx", "out.txt", "ids.txt", false, 4, 8⟩
      [⟨"CQ001", "what is x", "x"⟩]
      = .error "AttributeError: Namespace object has no attribute use_question" :=
  ⟨rfl, rfl⟩

/-- C2: the run aborts partway instead of writing every segment line.
With two candidate documents, each yielding one segment, the claim
requires two prompt lines and two id lines; the code writes the first
segment's two lines and then raises `NameError` at `n_segments += 1`
(`num_segments` is the initialised name), so the second candidate is
never processed. -/
theorem c2_run_aborts_after_first_segment :
    (mainLoop (fun _ => some "T\nB") (fun s => [s]) 1 1 [(1, "q")]
        [(1, ["D1", "D2"])] initState).2
      = some "NameError: name n_segments is not defined" ∧
    (mainLoop (fun _ => some "T\nB") (fun s => [s]) 1 1 [(1, "q")]
        [(1, ["D1", "D2"])] initState).1.t5_texts
      = ["Query: q Document: T. B Relevant:"] ∧
    (mainLoop (fun _ => some "T\nB") (fun s => [s]) 1 1 [(1, "q")]
        [(1, ["D1", "D2"])] initState).1.t5_ids
      = ["1\tD1\t0"] :=
  ⟨rfl, rfl, rfl⟩

/-- `addRunEntry` appends the new pair to the list stored for its key
and leaves every other key's list unchanged. -/
theorem flatDict_addRunEntry (m : List (Int × List (String × Int))) (q : Int)
    (e : String × Int) (q2 : Int) :
    flatDict (addRunEntry m q e) q2
      = if q2 = q then flatDict m q2 ++ [e] else flatDict m q2 := by
  induction m with
  | nil =>
    by_cases h : q2 = q
    · subst h; simp [flatDict, addRunEntry, dictGet]
    · have h2 : ¬ (q = q2) := fun h3 => h h3.symm
      simp [flatDict, addRunEntry, dictGet, h, h2]
  | cons kv rest ih =>
    obtain ⟨k, v⟩ := kv
    by_cases hk : k = q
    · subst hk
      by_cases h : q2 = k
      · subst h; simp [flatDict, addRunEntry, dictGet]
      · have h2 : ¬ (k = q2) := fun h3 => h h3.symm
        simp [flatDict, addRunEntry, dictGet, h, h2]
    · by_cases h2 : k = q2
      · subst h2
        simp [flatDict, addRunEntry, dictGet, hk]
      · simpa [flatDict, addRunEntry, dictGet, hk, h2] using ih

/-- Invariant of the first `load_run` loop: when it succeeds, the pairs
stored for each query id are the accumulator's pairs followed by the
parsed lines with that id, in file order. -/
theorem load_run_aux_flat (lines : List String) :
    ∀ (acc res : List (Int × List (String × Int))),
      load_run_aux acc lines = .ok res →
      ∀ q : Int, flatDict res q = flatDict acc q ++ linePairs lines q := by
  induction lines with
  | nil =>
    intro acc res h q
    simp only [load_run_aux] at h
    cases h
    simp [linePairs]
  | cons line rest ih =>
    intro acc res h q
    simp only [load_run_aux] at h
    cases hp : parseRunLine line with
    | error e => rw [hp] at h; exact absurd h (by simp [Bind.bind, Except.bind])
    | ok t =>
      obtain ⟨q1, d, r⟩ := t
      rw [hp] at h
      simp only [Bind.bind, Except.bind] at h
      have h2 := ih (addRunEntry acc q1 (d, r)) res h q
      rw [h2, flatDict_addRunEntry]
      by_cases hq : q = q1
      · subst hq
        simp [linePairs, hp, List.append_assoc]
      · have : ¬ (q1 = q) := fun h3 => hq h3.symm
        simp [linePairs, hp, this, hq]

/-- Inversion of `load_run`: a successful result is the per-query
`Prod.fst` projection of the pair dict built by the first loop (the
rank-sorted copy is computed and discarded). -/
theorem load_run_ok (lines : List String) (res : List (Int × List String))
    (h : load_run lines = .ok res) :
    ∃ run, load_run_aux [] lines = .ok run ∧
      res = run.map (fun p => (p.1, p.2.map Prod.fst)) := by
  unfold load_run at h
  cases h0 : load_run_aux [] lines with
  | error e => rw [h0] at h; exact absurd h (by simp [Bind.bind, Except.bind])
  | ok run =>
    rw [h0] at h
    simp only [Bind.bind, Except.bind, Except.ok.injEq] at h
    exact ⟨run, rfl, h.symm⟩

/-- Mapping every stored pair list through `Prod.fst` commutes with
`flatDict`. -/
theorem flatDict_mapDocs (m : List (Int × List (String × Int))) (q : Int) :
    flatDict (m.map (fun p => (p.1, p.2.map Prod.fst))) q
      = (flatDict m q).map Prod.fst := by
  induction m with
  | nil => simp [flatDict, dictGet]
  | cons kv rest ih =>
    obtain ⟨k, v⟩ := kv
    by_cases h : k = q
    · simp [flatDict, dictGet, h]
    · simpa [flatDict, dictGet, h] using ih

/-- Projecting the first components of `linePairs` gives the file-order
doc ids. -/
theorem fileOrder_eq_map_fst (lines : List String) (q : Int) :
    fileOrderDocIds lines q = (linePairs lines q).map Prod.fst := by
  induction lines with
  | nil => simp [fileOrderDocIds, linePairs]
  | cons line rest ih =>
    cases hp : parseRunLine line with
    | error e => simpa [fileOrderDocIds, linePairs, hp] using ih
    | ok t =>
      obtain ⟨q1, d, r⟩ := t
      by_cases h : q1 = q <;> simpa [fileOrderDocIds, linePairs, hp, h] using ih

/-- C3: `load_run` returns candidates in file order.  First conjunct:
for every run file that loads successfully, the candidate list stored
for each query id is exactly the doc ids of that query's lines in the
order they appear in the file.  Second conjunct: on the run file
`"1 Q0 D1 1 0 run\n1 Q0 D2 2 0 run\n"` the candidate list for query 1 is
`["D1", "D2"]`. -/
theorem c3_load_run_preserves_file_order :
    (∀ (lines : List String) (m : List (Int × List String)),
        load_run lines = .ok m →
        ∀ q : Int, flatDict m q = fileOrderDocIds lines q) ∧
    load_run (fileLines "1 Q0 D1 1 0 run\n1 Q0 D2 2 0 run\n")
      = .ok [(1, ["D1", "D2"])] := by
  constructor
  · intro lines m h q
    obtain ⟨run, h1, h2⟩ := load_run_ok lines m h
    subst h2
    rw [flatDict_mapDocs, load_run_aux_flat lines [] run h1 q, fileOrder_eq_map_fst]
    simp [flatDict, dictGet]
  · rfl

theorem c3_load_run_preserves_file_order_witness :
    flatDict [(1, ["D1", "D2"])] (1 : Int)
      = fileOrderDocIds (fileLines "1 Q0 D1 1 0 run\n1 Q0 D2 2 0 run\n") 1 :=
  c3_load_run_preserves_file_order.1
    (fileLines "1 Q0 D1 1 0 run\n1 Q0 D2 2 0 run\n") [(1, ["D1", "D2"])] rfl 1

/-- C4 counterexample: `load_run` does not order candidates by rank.
For a run file whose two lines carry ranks 2 then 1, the stored
candidate list is `["D2", "D1"]` (file order); a rank-ascending order —
what the discarded `sorted(...)` call would have produced — is
`[("D1", 1), ("D2", 2)]`, a different order. -/
theorem c4_load_run_not_rank_ordered_counterexample :
    load_run (fileLines "1 Q0 D2 2 0 run\n1 Q0 D1 1 0 run\n")
      = .ok [(1, ["D2", "D1"])] ∧
    sortedByRank [("D2", 2), ("D1", 1)] = [("D1", 1), ("D2", 2)] ∧
    (["D2", "D1"] : List String) ≠ ["D1", "D2"] :=
  ⟨rfl, rfl, by decide⟩

/-- C4 amended: the candidate list stored for each query id is in file
order, not rank order — the rank-sorted copy `sorted(doc_ids_ranks, ...)`
is computed but its return value is discarded, so the rank field never
influences the stored order.  First conjunct: the general file-order
characterisation; second conjunct: on the run file whose lines are in
descending-rank order the stored list keeps the file order. -/
theorem c4_amended_load_run_file_order_not_rank :
    (∀ (lines : List String) (m : List (Int × List String)),
        load_run lines = .ok m →
        ∀ q : Int, flatDict m q = fileOrderDocIds lines q) ∧
    load_run (fileLines "1 Q0 D2 2 0 run\n1 Q0 D1 1 0 run\n")
      = .ok [(1, ["D2", "D1"])] := by
  constructor
  · intro lines m h q
    obtain ⟨run, h1, h2⟩ := load_run_ok lines m h
    subst h2
    rw [flatDict_mapDocs, load_run_aux_flat lines [] run h1 q, fileOrder_eq_map_fst]
    simp [flatDict, dictGet]
  · rfl

theorem c4_amended_load_run_file_order_not_rank_witness :
    flatDict [(1, ["D2", "D1"])] (1 : Int)
      = fileOrderDocIds (fileLines "1 Q0 D2 2 0 run\n1 Q0 D1 1 0 run\n") 1 :=
  c4_amended_load_run_file_order_not_rank.1
    (fileLines "1 Q0 D2 2 0 run\n1 Q0 D1 1 0 run\n") [(1, ["D2", "D1"])] rfl 1

/-- C5 counterexample: with two sentences, `stride = 2` and
`max_length = 1` (both ≥ 1, list non-empty), the loop visits only start
offset 0, whose window is `["a"]`: no window contains the last sentence
`"b"`, refuting "exactly one window contains the last sentence". -/
theorem c5_last_sentence_missed_counterexample :
    segWindows ["a", "b"] 2 1 = [["a"]] ∧
    (∀ w ∈ segWindows ["a", "b"] 2 1, ¬ ("b" ∈ w)) ∧
    (segStarts 2 2 1).countP (fun i => decide (2 ≤ i + 1)) = 0 :=
  ⟨rfl, by decide, rfl⟩

/-! ### Lemmas about the segment loop's start offsets -/

/-- `takeUpTo` never visits more elements than the underlying range. -/
theorem takeUpTo_length_le {α : Type} (p : α → Bool) (l : List α) :
    (takeUpTo p l).length ≤ l.length := by
  induction l with
  | nil => simp [takeUpTo]
  | cons a as ih =>
    simp only [takeUpTo]
    split
    · simp
    · simpa using ih

/-- Up to where it stops, `takeUpTo` visits exactly the elements of the
underlying range, in order. -/
theorem takeUpTo_getElem? {α : Type} (p : α → Bool) (l : List α) (i : Nat)
    (h : i < (takeUpTo p l).length) :
    (takeUpTo p l)[i]? = l[i]? := by
  induction l generalizing i with
  | nil => simp [takeUpTo] at h
  | cons a as ih =>
    by_cases hp : p a
    · have he : takeUpTo p (a :: as) = [a] := by simp [takeUpTo, hp]
      have h1 : i < 1 := by rw [he] at h; simpa using h
      have hi : i = 0 := by omega
      subst hi
      rw [he]
      simp
    · have he : takeUpTo p (a :: as) = a :: takeUpTo p as := by
        simp [takeUpTo, hp]
      rw [he]
      cases i with
      | zero => simp
      | succ j =>
        have h2 : j < (takeUpTo p as).length := by
          rw [he] at h; simpa using h
        simp only [List.getElem?_cons_succ]
        exact ih j h2

/-- `takeUpTo` of a non-empty list is non-empty (the loop body runs at
least once). -/
theorem takeUpTo_ne_nil {α : Type} (p : α → Bool) (l : List α) (h : l ≠ []) :
    takeUpTo p l ≠ [] := by
  cases l with
  | nil => exact absurd rfl h
  | cons a as => simp only [takeUpTo]; split <;> simp

/-- Every element `takeUpTo` visits is an element of the underlying
range. -/
theorem takeUpTo_mem {α : Type} (p : α → Bool) (l : List α) (x : α)
    (h : x ∈ takeUpTo p l) : x ∈ l := by
  induction l with
  | nil => simp [takeUpTo] at h
  | cons a as ih =>
    simp only [takeUpTo] at h
    by_cases hp : p a
    · simp only [hp, if_pos] at h
      simp [List.mem_singleton.mp h]
    · simp only [hp, Bool.false_eq_true, if_neg, not_false_iff, List.mem_cons] at h
      rcases h with h | h
      · simp [h]
      · simp [ih h]

/-- Every element before the one `takeUpTo` stops at fails the stopping
condition. -/
theorem takeUpTo_dropLast {α : Type} (p : α → Bool) (l : List α) (x : α)
    (h : x ∈ (takeUpTo p l).dropLast) : p x = false := by
  induction l with
  | nil => simp [takeUpTo] at h
  | cons a as ih =>
    by_cases hp : p a
    · simp [takeUpTo, hp] at h
    · simp only [takeUpTo, hp, Bool.false_eq_true, if_neg, not_false_iff] at h
      cases ht : takeUpTo p as with
      | nil => rw [ht] at h; simp at h
      | cons b bs =>
        rw [ht] at h
        rw [List.dropLast_cons₂] at h
        rcases List.mem_cons.mp h with h2 | h2
        · subst h2; simpa using hp
        · exact ih (by rw [ht]; exact h2)

/-- When some element of the range satisfies the stopping condition, the
element `takeUpTo` stops at satisfies it. -/
theorem takeUpTo_getLast? {α : Type} (p : α → Bool) (l : List α)
    (hex : ∃ y ∈ l, p y = true) (x : α)
    (h : (takeUpTo p l).getLast? = some x) : p x = true := by
  induction l with
  | nil => simp at hex
  | cons a as ih =>
    by_cases hp : p a
    · have he : takeUpTo p (a :: as) = [a] := by simp [takeUpTo, hp]
      rw [he] at h
      simp only [List.getLast?_singleton, Option.some.injEq] at h
      subst h
      exact hp
    · have he : takeUpTo p (a :: as) = a :: takeUpTo p as := by
        simp [takeUpTo, hp]
      have hex2 : ∃ y ∈ as, p y = true := by
        rcases hex with ⟨y, hy, hpy⟩
        rcases List.mem_cons.mp hy with h2 | h2
        · subst h2; exact absurd hpy (by simpa using hp)
        · exact ⟨y, h2, hpy⟩
      have hne : takeUpTo p as ≠ [] := by
        rcases hex2 with ⟨y, hy, _⟩
        exact takeUpTo_ne_nil p as (List.ne_nil_of_mem hy)
      rw [he] at h
      cases ht : takeUpTo p as with
      | nil => exact absurd ht hne
      | cons b bs =>
        rw [ht] at h
        rw [List.getLast?_cons_cons] at h
        exact ih hex2 (by rw [ht]; exact h)

/-- Elements of `range(0, n, stride)` are below `n`. -/
theorem pyRange_mem_lt (n stride : Nat) (hs : 1 ≤ stride) (x : Nat)
    (h : x ∈ pyRange n stride) : x < n := by
  rw [pyRange, List.mem_range'] at h
  obtain ⟨i, hi, hx⟩ := h
  subst hx
  have h1 := Nat.div_add_mod (n + stride - 1) stride
  have h2 : (n + stride - 1) % stride < stride := Nat.mod_lt _ (by omega)
  have h3 : i + 1 ≤ (n + stride - 1) / stride := hi
  have h4 : stride * (i + 1) ≤ stride * ((n + stride - 1) / stride) :=
    Nat.mul_le_mul_left stride h3
  have h5 : stride * (i + 1) = stride * i + stride := Nat.mul_succ stride i
  omega

/-- `range(0, n, stride)` is non-empty when `n ≥ 1`. -/
theorem pyRange_ne_nil (n stride : Nat) (hn : 1 ≤ n) (hs : 1 ≤ stride) :
    pyRange n stride ≠ [] := by
  have h : (pyRange n stride).length = (n + stride - 1) / stride := by
    simp [pyRange]
  intro hcon
  rw [hcon] at h
  simp only [List.length_nil] at h
  have h2 : 1 ≤ (n + stride - 1) / stride :=
    (Nat.le_div_iff_mul_le (by omega)).mpr (by omega)
  omega

/-- When `stride ≤ max_length`, some element of `range(0, n, stride)`
triggers the loop's `break` condition `n ≤ i + max_length`. -/
theorem pyRange_exists_break (n stride max_length : Nat) (hn : 1 ≤ n)
    (hs : 1 ≤ stride) (hsm : stride ≤ max_length) :
    ∃ x ∈ pyRange n stride, decide (n ≤ x + max_length) = true := by
  have hc : 1 ≤ (n + stride - 1) / stride :=
    (Nat.le_div_iff_mul_le (by omega)).mpr (by omega)
  refine ⟨stride * ((n + stride - 1) / stride - 1), ?_, ?_⟩
  · rw [pyRange, List.mem_range']
    exact ⟨(n + stride - 1) / stride - 1, by omega, by omega⟩
  · have h1 := Nat.div_add_mod (n + stride - 1) stride
    have h2 : (n + stride - 1) % stride < stride := Nat.mod_lt _ (by omega)
    have h6 : (n + stride - 1) / stride - 1 + 1 = (n + stride - 1) / stride := by
      omega
    have h7 : stride * ((n + stride - 1) / stride - 1 + 1)
        = stride * ((n + stride - 1) / stride - 1) + stride :=
      Nat.mul_succ stride _
    rw [h6] at h7
    simp only [decide_eq_true_eq]
    omega

/-- Unfolding of `segStarts`. -/
theorem segStarts_eq (n stride max_length : Nat) :
    segStarts n stride max_length
      = takeUpTo (fun i => decide (n ≤ i + max_length)) (pyRange n stride) := rfl

/-- The `k`-th start offset the segment loop visits is `stride * k`. -/
theorem segStarts_getElem (n stride max_length k : Nat)
    (h : k < (segStarts n stride max_length).length) :
    (segStarts n stride max_length).get ⟨k, h⟩ = stride * k := by
  have h2 : k < (takeUpTo (fun i => decide (n ≤ i + max_length))
      (pyRange n stride)).length := h
  have hlt : k < (pyRange n stride).length :=
    lt_of_lt_of_le h2 (takeUpTo_length_le _ _)
  have e := takeUpTo_getElem? (fun i => decide (n ≤ i + max_length))
    (pyRange n stride) k h2
  rw [List.getElem?_eq_getElem hlt, List.getElem?_eq_getElem h2] at e
  have h3 : (segStarts n stride max_length).get ⟨k, h⟩
      = (takeUpTo (fun i => decide (n ≤ i + max_length))
          (pyRange n stride)).get ⟨k, h2⟩ := rfl
  rw [h3, List.get_eq_getElem, Option.some.inj e]
  simp [pyRange, List.getElem_range']

/-- C5 amended: for every non-empty sentence list, every `stride ≥ 1`
and every `max_length ≥ stride`, the claim holds: every window
`sentences[i : i + max_length]` has at most `max_length` sentences,
successive start offsets differ by exactly `stride`, the loop runs at
least one iteration, every window before the final one ends strictly
before the last sentence, and the final visited offset's window reaches
(and therefore contains) the last sentence — the `break` then stops the
loop.  (The original claim, quantified over all `stride ≥ 1` and
`max_length ≥ 1`, fails when `stride > max_length`; the extra hypothesis
`stride ≤ max_length` is what the counterexample forces.) -/
theorem c5_amended_segmenter_windows (sentences : List String)
    (stride max_length : Nat) (hne : sentences ≠ [])
    (hs : 1 ≤ stride) (_hm : 1 ≤ max_length) (hsm : stride ≤ max_length) :
    (∀ w ∈ segWindows sentences stride max_length, w.length ≤ max_length) ∧
    (∀ (k : Nat) (h : k + 1 < (segStarts sentences.length stride max_length).length),
        (segStarts sentences.length stride max_length).get ⟨k + 1, h⟩
          = (segStarts sentences.length stride max_length).get
              ⟨k, by omega⟩ + stride) ∧
    segStarts sentences.length stride max_length ≠ [] ∧
    (∀ i ∈ (segStarts sentences.length stride max_length).dropLast,
        i + max_length < sentences.length) ∧
    (∀ i : Nat,
        (segStarts sentences.length stride max_length).getLast? = some i →
        i < sentences.length ∧ sentences.length ≤ i + max_length) := by
  have hn : 1 ≤ sentences.length := List.length_pos.mpr hne
  have hnil : segStarts sentences.length stride max_length ≠ [] := by
    rw [segStarts_eq]
    exact takeUpTo_ne_nil _ _ (pyRange_ne_nil sentences.length stride hn hs)
  refine ⟨?_, ?_, hnil, ?_, ?_⟩
  · intro w hw
    simp only [segWindows, List.mem_map] at hw
    obtain ⟨i, _, rfl⟩ := hw
    simp only [List.length_take]
    omega
  · intro k h
    rw [segStarts_getElem _ _ _ (k + 1) h,
        segStarts_getElem _ _ _ k (by omega)]
    exact Nat.mul_succ stride k
  · intro i hi
    rw [segStarts_eq] at hi
    have h2 := takeUpTo_dropLast _ _ _ hi
    simp only [decide_eq_false_iff_not, not_le] at h2
    exact h2
  · intro i hlast
    have hmem : i ∈ segStarts sentences.length stride max_length := by
      rw [List.getLast?_eq_getLast _ hnil] at hlast
      have hm2 := List.getLast_mem hnil
      rwa [Option.some.inj hlast] at hm2
    constructor
    · exact pyRange_mem_lt sentences.length stride hs i
        (takeUpTo_mem _ _ _ (by rw [segStarts_eq] at hmem; exact hmem))
    · have hsat := takeUpTo_getLast? (fun j => decide (sentences.length ≤ j + max_length))
        (pyRange sentences.length stride)
        (pyRange_exists_break sentences.length stride max_length hn hs hsm) i
        (by rw [segStarts_eq] at hlast; exact hlast)
      simpa using hsat

theorem c5_amended_segmenter_windows_witness :
    segStarts (["a", "b", "c"] : List String).length 1 2 ≠ [] :=
  (c5_amended_segmenter_windows ["a", "b", "c"] 1 2 (by decide) (by decide)
    (by decide) (by decide)).2.2.1

/-! ### Lockstep of the two output files -/

/-- Each segment iteration appends exactly one line to each output file
(both before the `n_segments` increment), so the two files keep equal
line counts through the segment loop, whether it returns normally or
raises. -/
theorem segmentSteps_lockstep (query_id : Int) (c q : String)
    (sentences : List String) (max_length : Nat) (starts : List Nat)
    (title : String) (st : MainState)
    (h : st.t5_texts.length = st.t5_ids.length) :
    (segmentSteps query_id c q sentences max_length starts title st).1.t5_texts.length
      = (segmentSteps query_id c q sentences max_length starts title st).1.t5_ids.length := by
  induction starts generalizing title st with
  | nil => simpa [segmentSteps] using h
  | cons i rest ih =>
    simp only [segmentSteps]
    cases hns : st.n_segments with
    | none => simp [hns, h]
    | some k =>
      simp only [hns]
      exact ih _ _ (by simp [h])

/-- Processing one candidate preserves the equal-line-count invariant of
the two output files, in every branch (skip, missing document, short
document, and the segment loop, aborted or not). -/
theorem processCandidate_lockstep (index : String → Option String)
    (sents : String → List String) (stride max_length : Nat) (query_id : Int)
    (query c : String) (seen : List String) (st : MainState)
    (h : st.t5_texts.length = st.t5_ids.length) :
    (processCandidate index sents stride max_length query_id query c seen st).2.1.t5_texts.length
      = (processCandidate index sents stride max_length query_id query c seen st).2.1.t5_ids.length := by
  simp only [processCandidate]
  split
  · exact h
  · split
    · simpa using h
    · split
      · simpa using h
      · split
        · simpa using h
        · split
          · simpa using h
          · split
            · split <;> simpa using h
            · apply segmentSteps_lockstep
              split <;> simpa using h

/-- The candidate loop preserves the equal-line-count invariant,
including when it stops on a raised error. -/
theorem processCandidates_lockstep (index : String → Option String)
    (sents : String → List String) (stride max_length : Nat) (query_id : Int)
    (query : String) (cands : List String) :
    ∀ (seen : List String) (st : MainState),
      st.t5_texts.length = st.t5_ids.length →
      (processCandidates index sents stride max_length query_id query cands seen st).1.t5_texts.length
        = (processCandidates index sents stride max_length query_id query cands seen st).1.t5_ids.length := by
  induction cands with
  | nil => intro seen st h; simpa [processCandidates] using h
  | cons c rest ih =>
    intro seen st h
    have h2 := processCandidate_lockstep index sents stride max_length query_id
      query c seen st h
    simp only [processCandidates]
    cases hp : processCandidate index sents stride max_length query_id query c seen st with
    | mk seen2 p2 =>
      obtain ⟨st2, err⟩ := p2
      rw [hp] at h2
      simp only at h2
      cases err with
      | none => exact ih seen2 st2 h2
      | some e => simpa using h2

/-- The query loop preserves the equal-line-count invariant, including
on a `KeyError` or an error raised inside the candidate loop. -/
theorem mainLoop_lockstep (index : String → Option String)
    (sents : String → List String) (stride max_length : Nat)
    (queries : List (Int × String)) (run : List (Int × List String)) :
    ∀ st : MainState,
      st.t5_texts.length = st.t5_ids.length →
      (mainLoop index sents stride max_length queries run st).1.t5_texts.length
        = (mainLoop index sents stride max_length queries run st).1.t5_ids.length := by
  induction run with
  | nil => intro st h; simpa [mainLoop] using h
  | cons qc rest ih =>
    obtain ⟨query_id, cands⟩ := qc
    intro st h
    simp only [mainLoop]
    cases dictGet queries query_id with
    | none => simpa using h
    | some query =>
      dsimp only
      have h2 := processCandidates_lockstep index sents stride max_length
        query_id query cands [] st h
      cases hp : processCandidates index sents stride max_length query_id
          query cands [] st with
      | mk st2 err =>
        rw [hp] at h2
        simp only at h2
        cases err with
        | none => exact ih st2 h2
        | some e => simpa using h2

/-- C6: the two output files advance in lockstep.  First conjunct: every
segment iteration writes its id line and its prompt line together, so
the segment loop — even when it aborts at the `n_segments` `NameError`,
which fires after both writes — preserves equal line counts.  Second
conjunct: the whole output loop, from any state with equal counts and
under every termination mode (normal, `KeyError`, or an error raised in
the candidate loop), ends with equal line counts; line `k` of each file
is written by the same segment iteration, in the same order. -/
theorem c6_output_files_lockstep :
    (∀ (query_id : Int) (c q : String) (sentences : List String)
        (max_length : Nat) (starts : List Nat) (title : String) (st : MainState),
        st.t5_texts.length = st.t5_ids.length →
        (segmentSteps query_id c q sentences max_length starts title st).1.t5_texts.length
          = (segmentSteps query_id c q sentences max_length starts title st).1.t5_ids.length) ∧
    (∀ (index : String → Option String) (sents : String → List String)
        (stride max_length : Nat) (queries : List (Int × String))
        (run : List (Int × List String)) (st : MainState),
        st.t5_texts.length = st.t5_ids.length →
        (mainLoop index sents stride max_length queries run st).1.t5_texts.length
          = (mainLoop index sents stride max_length queries run st).1.t5_ids.length) :=
  ⟨fun query_id c q sentences max_length starts title st h =>
      segmentSteps_lockstep query_id c q sentences max_length starts title st h,
   fun index sents stride max_length queries run st h =>
      mainLoop_lockstep index sents stride max_length queries run st h⟩

theorem c6_output_files_lockstep_witness :
    (mainLoop (fun _ => some "T\nB") (fun s => [s]) 1 1 [(1, "q")]
        [(1, ["D1", "D2"])] initState).1.t5_texts.length
      = (mainLoop (fun _ => some "T\nB") (fun s => [s]) 1 1 [(1, "q")]
          [(1, ["D1", "D2"])] initState).1.t5_ids.length :=
  c6_output_files_lockstep.2 (fun _ => some "T\nB") (fun s => [s]) 1 1
    [(1, "q")] [(1, ["D1", "D2"])] initState rfl

/-- C7: a fetched document whose contents split on newline into fewer
than 2 sections is counted (`num_no_content += 1`, after `num_docs += 1`
at line 121) and skipped with `continue`: no prompt or id line is
written, no error is raised, and `seen_doc_ids` is unchanged. -/
theorem c7_short_document_counted_and_skipped
    (index : String → Option String) (sents : String → List String)
    (stride max_length : Nat) (query_id : Int) (query c : String)
    (seen : List String) (st : MainState) (contents : String)
    (hseen : seen.contains c = false)
    (hidx : index c = some contents)
    (hne : contents ≠ "")
    (hshort : (pySplitNl contents).length < 2) :
    processCandidate index sents stride max_length query_id query c seen st
      = (seen, { st with num_docs := st.num_docs + 1,
                         num_no_content := st.num_no_content + 1 }, none) := by
  have hlen : (pySplitNl contents).length ≠ 0 := by
    simpa [List.length_eq_zero] using pySplitNl_ne_nil contents
  have hseen2 : ¬ (c ∈ seen) := by simpa using hseen
  simp [processCandidate, hseen2, hidx, hne, hlen, hshort]

theorem c7_short_document_counted_and_skipped_witness :
    processCandidate (fun _ => some "Title only") (fun _ => []) 4 8 1 "q" "D1"
        [] initState
      = ([], { initState with num_docs := 1, num_no_content := 1 }, none) :=
  c7_short_document_counted_and_skipped (fun _ => some "Title only")
    (fun _ => []) 4 8 1 "q" "D1" [] initState "Title only" rfl rfl
    (by decide) (by decide)

/-- C8: a candidate whose index lookup yields no contents (`None` or the
empty string, both falsy for `if not contents`) is logged to standard
output, counted in `num_no_content`, and skipped with `continue`: no
prompt or id line is written, no error is raised (second conjunct: the
candidate loop goes straight on to the next candidate). -/
theorem c8_missing_document_logged_and_skipped
    (index : String → Option String) (sents : String → List String)
    (stride max_length : Nat) (query_id : Int) (query c : String)
    (rest seen : List String) (st : MainState)
    (hseen : seen.contains c = false)
    (hmiss : index c = none ∨ index c = some "") :
    processCandidate index sents stride max_length query_id query c seen st
      = (seen, { st with num_no_content := st.num_no_content + 1,
                         stdout := st.stdout ++ [s!"Doc id not found: {c}"] },
         none) ∧
    processCandidates index sents stride max_length query_id query
        (c :: rest) seen st
      = processCandidates index sents stride max_length query_id query rest seen
          { st with num_no_content := st.num_no_content + 1,
                    stdout := st.stdout ++ [s!"Doc id not found: {c}"] } := by
  have h1 : processCandidate index sents stride max_length query_id query c seen st
      = (seen, { st with num_no_content := st.num_no_content + 1,
                         stdout := st.stdout ++ [s!"Doc id not found: {c}"] },
         none) := by
    have hseen2 : ¬ (c ∈ seen) := by simpa using hseen
    rcases hmiss with hm | hm
    · simp [processCandidate, hseen2, hm]
    · simp [processCandidate, hseen2, hm]
  refine ⟨h1, ?_⟩
  simp only [processCandidates]
  rw [h1]

theorem c8_missing_document_logged_and_skipped_witness :
    processCandidate (fun _ => none) (fun _ => []) 4 8 1 "q" "D1" [] initState
      = ([], { initState with num_no_content := 1,
                              stdout := ["Doc id not found: D1"] }, none) ∧
    processCandidates (fun _ => none) (fun _ => []) 4 8 1 "q" ["D1", "D2"] [] initState
      = processCandidates (fun _ => none) (fun _ => []) 4 8 1 "q" ["D2"] []
          { initState with num_no_content := 1,
                           stdout := ["Doc id not found: D1"] } :=
  c8_missing_document_logged_and_skipped (fun _ => none) (fun _ => []) 4 8 1
    "q" "D1" ["D2"] [] initState rfl (Or.inl rfl)

/-- C9: within one query, a candidate doc id already in `seen_doc_ids`
is skipped by the check at lines 108-109: the state is returned
unchanged — in particular no prompt or id line is written — no error is
raised, and the candidate loop proceeds directly to the next candidate
(second conjunct).  A doc id enters `seen_doc_ids` only at line 156,
after its own segment loop finished without raising. -/
theorem c9_duplicate_candidate_skipped
    (index : String → Option String) (sents : String → List String)
    (stride max_length : Nat) (query_id : Int) (query c : String)
    (rest seen : List String) (st : MainState)
    (hseen : seen.contains c = true) :
    processCandidate index sents stride max_length query_id query c seen st
      = (seen, st, none) ∧
    processCandidates index sents stride max_length query_id query
        (c :: rest) seen st
      = processCandidates index sents stride max_length query_id query rest seen st := by
  have h1 : processCandidate index sents stride max_length query_id query c seen st
      = (seen, st, none) := by
    have hseen2 : c ∈ seen := by simpa using hseen
    simp [processCandidate, hseen2]
  refine ⟨h1, ?_⟩
  simp only [processCandidates]
  rw [h1]

theorem c9_duplicate_candidate_skipped_witness :
    processCandidate (fun _ => some "T\nB") (fun s => [s]) 1 1 1 "q" "D1"
        ["D1"] initState
      = (["D1"], initState, none) ∧
    processCandidates (fun _ => some "T\nB") (fun s => [s]) 1 1 1 "q"
        ["D1", "D2"] ["D1"] initState
      = processCandidates (fun _ => some "T\nB") (fun s => [s]) 1 1 1 "q"
          ["D2"] ["D1"] initState :=
  c9_duplicate_candidate_skipped (fun _ => some "T\nB") (fun s => [s]) 1 1 1
    "q" "D1" ["D2"] ["D1"] initState rfl

end Epi
